import Mathlib

/-!
Verification of the sampling/render loop core of `src/htop.py`
(class `EnhancedSystemMonitor`), as a shallow embedding in Lean 4.

The embedding translates the pure decision logic of the source:
  * `format_bytes`            (lines 153-166)
  * the battery field of `get_system_info` (lines 77-79) and its
    rendering in `display_header` (lines 196-203)
  * the per-row color choices and command-column truncation of
    `display_processes` (lines 229-277)
  * the visible-row counting of `display_processes` (lines 222-279)
  * the refresh scheduling and key handling of `run` (lines 293-329)

Python floats are modelled as rationals: every division performed by the
source is by 1024 (a power of two), which binary floating point carries
out exactly for the magnitudes the program meets, so the rational model
agrees with the float computation there.  Machine strings are Lean
`String`s; fallible Python code (the `try`/`except` blocks) is modelled
by total functions returning the value the handler produces.
-/

namespace Htop

/-- The three colors `display_processes` can pick for a numeric cell:
`curses.COLOR_RED`, `curses.COLOR_YELLOW`, `curses.COLOR_GREEN`.  The
spec's classes map as HIGH = RED, MEDIUM = YELLOW, NORMAL = GREEN. -/
inductive Color where
  | RED : Color
  | YELLOW : Color
  | GREEN : Color
deriving DecidableEq, Repr

/-- Numeric value of a list of ASCII decimal digits, most significant
first: the value `int(...)` computes on them. -/
def digitsVal (cs : List Char) : ℕ :=
  cs.foldl (fun a c => 10 * a + (c.toNat - 48)) 0

/-- Parse an unsigned decimal literal (digits, optionally followed by a
dot and further digits, with at least one digit overall) to a rational,
as Python `float(...)` does on such a literal. -/
def parseUnsigned? (cs : List Char) : Option ℚ :=
  let intPart := cs.takeWhile Char.isDigit
  let rest := cs.dropWhile Char.isDigit
  match rest with
  | [] => if intPart.isEmpty then none else some (digitsVal intPart : ℚ)
  | '.' :: frac =>
      if frac.all Char.isDigit && !(intPart.isEmpty && frac.isEmpty) then
        some ((digitsVal intPart : ℚ) + (digitsVal frac : ℚ) / 10 ^ frac.length)
      else none
  | _ => none

/-- Model of Python `float(s)` on the plain decimal literals the `ps`
columns `%cpu`/`%mem` produce: an optional sign followed by an unsigned
decimal literal.  (Python's `float` additionally accepts exponents,
`inf`/`nan` and surrounding whitespace; those inputs do not occur here
and are treated as unparsable.)  `none` models a raised `ValueError`. -/
def parsePyFloat? (s : String) : Option ℚ :=
  match s.data with
  | '-' :: rest => (parseUnsigned? rest).map (fun q => -q)
  | '+' :: rest => parseUnsigned? rest
  | cs => parseUnsigned? cs

/-- Color chosen for the CPU cell of a process row
(`display_processes`, lines 230-237): starts GREEN; if
`float(proc['cpu'])` succeeds and exceeds 20 it becomes RED, else if it
exceeds 10 it becomes YELLOW; a parse failure is swallowed by
`except: pass`, leaving GREEN.  Total by construction: no input raises. -/
def cpu_color (cpu : String) : Color :=
  match parsePyFloat? cpu with
  | some x => if 20 < x then .RED else if 10 < x then .YELLOW else .GREEN
  | none => .GREEN

/-- Color chosen for the memory cell of a process row
(`display_processes`, lines 239-246), thresholds 5 and 2. -/
def mem_color (mem : String) : Color :=
  match parsePyFloat? mem with
  | some x => if 5 < x then .RED else if 2 < x then .YELLOW else .GREEN
  | none => .GREEN

/-- C4: the CPU color classification is HIGH (RED) iff the string parses
to a number above 20, MEDIUM (YELLOW) iff it parses to a number in
(10, 20], and NORMAL (GREEN) iff it parses to at most 10 or does not
parse; `cpu_color` is a total function, so no input raises. -/
theorem cpu_color_classification (p : String) :
    (cpu_color p = Color.RED ↔ ∃ x, parsePyFloat? p = some x ∧ 20 < x) ∧
    (cpu_color p = Color.YELLOW ↔ ∃ x, parsePyFloat? p = some x ∧ 10 < x ∧ x ≤ 20) ∧
    (cpu_color p = Color.GREEN ↔
      (parsePyFloat? p = none ∨ ∃ x, parsePyFloat? p = some x ∧ x ≤ 10)) := by
  cases h : parsePyFloat? p with
  | none => simp [cpu_color, h]
  | some x =>
      simp only [cpu_color, h]
      by_cases h20 : 20 < x
      · simp [h20]
        all_goals linarith
      · by_cases h10 : 10 < x
        · simp [h20, h10]
          all_goals linarith
        · simp [h20, h10]
          all_goals linarith

/-- C5: the memory color classification is HIGH (RED) iff the string
parses to a number above 5, MEDIUM (YELLOW) iff it parses to a number in
(2, 5], and NORMAL (GREEN) otherwise, including every unparsable input;
`mem_color` is a total function, so no input raises. -/
theorem mem_color_classification (p : String) :
    (mem_color p = Color.RED ↔ ∃ x, parsePyFloat? p = some x ∧ 5 < x) ∧
    (mem_color p = Color.YELLOW ↔ ∃ x, parsePyFloat? p = some x ∧ 2 < x ∧ x ≤ 5) ∧
    (mem_color p = Color.GREEN ↔
      (parsePyFloat? p = none ∨ ∃ x, parsePyFloat? p = some x ∧ x ≤ 2)) := by
  cases h : parsePyFloat? p with
  | none => simp [mem_color, h]
  | some x =>
      simp only [mem_color, h]
      by_cases h5 : 5 < x
      · simp [h5]
        all_goals linarith
      · by_cases h2 : 2 < x
        · simp [h5, h2]
          all_goals linarith
        · simp [h5, h2]
          all_goals linarith

/-- Model of Python `str.isdigit()` for the ASCII strings the `ps`
columns carry: nonempty and all characters ASCII decimal digits.
(Python's `isdigit` also accepts some non-decimal Unicode digit
characters, but on those `int(...)` then raises and the surrounding
`except` returns "N/A", the same value this model's guard produces.
Non-ASCII decimal digits such as fullwidth forms, which Python would
format, lie outside the ASCII output of `ps` that this model covers.) -/
def pyIsdigit (s : String) : Bool :=
  !s.isEmpty && s.data.all Char.isDigit

/-- Round a rational to the nearest integer, ties to even: the rounding
Python's `format(..., '.1f')` applies to the (here exactly-represented)
float value scaled by ten. -/
def roundHalfEven (x : ℚ) : ℤ :=
  let f := ⌊x⌋
  let r := x - f
  if r < 1 / 2 then f
  else if 1 / 2 < r then f + 1
  else if f % 2 = 0 then f else f + 1

/-- Python `f"{v:.1f}"` for the nonnegative values `format_bytes`
formats: the value rounded to one decimal digit, rendered with exactly
one digit after the dot. -/
def fmt1 (v : ℚ) : String :=
  let n : ℕ := (roundHalfEven (v * 10)).toNat
  toString (n / 10) ++ "." ++ toString (n % 10)

/-- The unit ladder of `format_bytes` (line 160); `PB` is appended by
the fallthrough at line 164. -/
def unit_list : List String := ["KB", "MB", "GB", "TB"]

/-- The scaling loop of `format_bytes` (lines 160-164): emit the current
value with the current unit once it is below 1024, else divide by 1024
and move to the next unit; after `TB` the value is emitted as `PB`. -/
def fbLoop : ℚ → List String → String
  | v, [] => fmt1 v ++ " PB"
  | v, u :: us => if v < 1024 then fmt1 v ++ " " ++ u else fbLoop (v / 1024) us

/-- `EnhancedSystemMonitor.format_bytes` (lines 153-166) on a string
argument: the literal "N/A" or any string that is not all decimal
digits yields "N/A"; otherwise the integer value is scaled through the
unit ladder.  (The `try`/`except` around the loop never fires once the
digit guard has passed.) -/
def format_bytes (s : String) : String :=
  if s = "N/A" ∨ pyIsdigit s = false then "N/A"
  else fbLoop ((digitsVal s.data : ℕ) : ℚ) unit_list

/-- Name of the unit used after `k` divisions by 1024. -/
def unitName : ℕ → String
  | 0 => "KB"
  | 1 => "MB"
  | 2 => "GB"
  | 3 => "TB"
  | _ => "PB"

lemma fbLoop_eq (v : ℚ) :
    fbLoop v unit_list =
      if v < 1024 then fmt1 v ++ " " ++ "KB"
      else if v / 1024 < 1024 then fmt1 (v / 1024) ++ " " ++ "MB"
      else if v / 1024 ^ 2 < 1024 then fmt1 (v / 1024 ^ 2) ++ " " ++ "GB"
      else if v / 1024 ^ 3 < 1024 then fmt1 (v / 1024 ^ 3) ++ " " ++ "TB"
      else fmt1 (v / 1024 ^ 4) ++ " PB" := by
  have h2 : v / 1024 / 1024 = v / 1024 ^ 2 := by ring
  have h3 : v / 1024 ^ 2 / 1024 = v / 1024 ^ 3 := by ring
  have h4 : v / 1024 ^ 3 / 1024 = v / 1024 ^ 4 := by ring
  simp only [unit_list, fbLoop, h2, h3, h4]

lemma append_space_last (a b : String) : a ++ (" " ++ b) = a ++ " " ++ b := by
  rw [String.append_assoc]

lemma roundHalfEven_natCast (m : ℕ) : roundHalfEven (m : ℚ) = (m : ℤ) := by
  unfold roundHalfEven
  rw [Int.floor_natCast]
  norm_num

lemma fmt1_natCast (n : ℕ) :
    fmt1 (n : ℚ) = toString n ++ "." ++ toString (0 : ℕ) := by
  unfold fmt1
  have h : (n : ℚ) * 10 = ((n * 10 : ℕ) : ℚ) := by push_cast; ring
  rw [h, roundHalfEven_natCast, Int.toNat_natCast]
  show toString (n * 10 / 10) ++ "." ++ toString (n * 10 % 10) =
    toString n ++ "." ++ toString (0 : ℕ)
  rw [Nat.mul_div_cancel n (by norm_num), Nat.mul_mod_left n 10]

lemma format_bytes_eval_zero : format_bytes "0" = "0.0 KB" := by
  unfold format_bytes
  rw [if_neg (by decide)]
  have hd : digitsVal "0".data = 0 := by decide
  rw [hd, fbLoop_eq, if_pos (by norm_num), fmt1_natCast]
  decide

lemma format_bytes_eval_1024 : format_bytes "1024" = "1.0 MB" := by
  unfold format_bytes
  rw [if_neg (by decide)]
  have hd : digitsVal "1024".data = 1024 := by decide
  rw [hd, fbLoop_eq, if_neg (by norm_num), if_pos (by norm_num)]
  have h1 : ((1024 : ℕ) : ℚ) / 1024 = ((1 : ℕ) : ℚ) := by norm_num
  rw [h1, fmt1_natCast]
  decide

/-- C1 counterexample: on the non-numeric input "abc" the formatter
returns "N/A", not the literal "unavailable" the claim names. -/
theorem format_bytes_abc_not_unavailable :
    format_bytes "abc" ≠ "unavailable" ∧ format_bytes "abc" = "N/A" := by
  constructor <;> decide

/-- C1 (amended): the formatter maps "0" to "0.0 KB" and "1024" to
"1.0 MB"; every input that is not an all-digit string yields the
literal "N/A" (in particular "abc"), and no input raises since the
function is total; an all-digit input is scaled to the first unit of
KB/MB/GB/TB under which the value drops below 1024 (PB if none does)
and printed by `fmt1`, which always renders exactly one digit after the
decimal point. -/
theorem format_bytes_spec :
    format_bytes "0" = "0.0 KB" ∧
    format_bytes "1024" = "1.0 MB" ∧
    format_bytes "abc" = "N/A" ∧
    (∀ s : String, pyIsdigit s = false → format_bytes s = "N/A") ∧
    (∀ v : ℚ, 0 ≤ v → ∃ m d : ℕ, d < 10 ∧ fmt1 v = toString m ++ "." ++ toString d) ∧
    (∀ s : String, pyIsdigit s = true →
      ∃ k : ℕ, k ≤ 4 ∧
        format_bytes s = fmt1 ((digitsVal s.data : ℚ) / 1024 ^ k) ++ " " ++ unitName k ∧
        (∀ j : ℕ, j < k → 1024 ≤ (digitsVal s.data : ℚ) / 1024 ^ j) ∧
        (k < 4 → (digitsVal s.data : ℚ) / 1024 ^ k < 1024)) := by
  refine ⟨format_bytes_eval_zero, format_bytes_eval_1024, by decide, ?_, ?_, ?_⟩
  · intro s hs
    simp [format_bytes, hs]
  · intro v _
    exact ⟨(roundHalfEven (v * 10)).toNat / 10, (roundHalfEven (v * 10)).toNat % 10,
      Nat.mod_lt _ (by norm_num), rfl⟩
  · intro s hs
    have hne : ¬(s = "N/A") := by
      rintro rfl
      revert hs
      decide
    set v : ℚ := ((digitsVal s.data : ℕ) : ℚ) with hv
    have h0 : (0 : ℚ) ≤ v := by positivity
    have hfb : format_bytes s = fbLoop v unit_list := by
      simp [format_bytes, hne, hs, hv]
    rw [hfb, fbLoop_eq]
    by_cases c0 : v < 1024
    · refine ⟨0, by norm_num, ?_, by omega, fun _ => by simpa using c0⟩
      simp [c0, unitName, unit_list]
    · by_cases c1 : v / 1024 < 1024
      · refine ⟨1, by norm_num, ?_, ?_, fun _ => by simpa using c1⟩
        · simp [c0, c1, unitName, unit_list]
        · intro j hj
          interval_cases j
          simpa using not_lt.mp c0
      · by_cases c2 : v / 1024 ^ 2 < 1024
        · refine ⟨2, by norm_num, ?_, ?_, fun _ => c2⟩
          · simp [c0, c1, c2, unitName, unit_list]
          · intro j hj
            interval_cases j
            · simpa using not_lt.mp c0
            · simpa using not_lt.mp c1
        · by_cases c3 : v / 1024 ^ 3 < 1024
          · refine ⟨3, by norm_num, ?_, ?_, fun _ => c3⟩
            · simp [c0, c1, c2, c3, unitName, unit_list]
            · intro j hj
              interval_cases j
              · simpa using not_lt.mp c0
              · simpa using not_lt.mp c1
              · exact not_lt.mp c2
          · refine ⟨4, le_refl 4, ?_, ?_, by omega⟩
            · have hPB : ((" " : String) ++ "PB") = " PB" := by decide
              simp only [if_neg c0, if_neg c1, if_neg c2, if_neg c3, unitName]
              rw [← append_space_last, hPB]
            · intro j hj
              interval_cases j
              · simpa using not_lt.mp c0
              · simpa using not_lt.mp c1
              · exact not_lt.mp c2
              · exact not_lt.mp c3

/-- C1 witness: the general clauses of `format_bytes_spec` applied at
concrete inputs. -/
theorem format_bytes_spec_witness :
    format_bytes "zz" = "N/A" ∧
    format_bytes "2048" = fmt1 ((digitsVal "2048".data : ℚ) / 1024 ^ 1) ++ " " ++ unitName 1 := by
  have hd : digitsVal "2048".data = 2048 := by decide
  constructor
  · exact format_bytes_spec.2.2.2.1 "zz" (by decide)
  · obtain ⟨k, -, heq, hmin, hlt⟩ := format_bytes_spec.2.2.2.2.2 "2048" (by decide)
    have hk : k = 1 := by
      by_contra hk1
      rcases Nat.lt_or_ge k 1 with hlo | hhi
      · have h := hlt (by omega)
        have hk0 : k = 0 := by omega
        rw [hk0, hd] at h
        norm_num at h
      · have h := hmin 1 (by omega)
        rw [hd] at h
        norm_num at h
    rwa [hk] at heq

/-- C10: any ASCII input string containing a character that is not a
decimal digit — including numerically valid strings such as "1.5" or
"-5" — makes `format_bytes` return its unavailable marker "N/A": only
all-digit strings are ever formatted as a size. -/
theorem format_bytes_nondigit (s : String)
    (hx : ∃ c ∈ s.data, ¬ c.isDigit) :
    format_bytes s = "N/A" := by
  obtain ⟨c, hc, hcd⟩ := hx
  have hall : s.data.all Char.isDigit = false := by
    rw [List.all_eq_false]
    exact ⟨c, hc, by simpa using hcd⟩
  have hpd : pyIsdigit s = false := by
    simp [pyIsdigit, hall]
  simp [format_bytes, hpd]

/-- C10 witness: "1.5" and "-5" contain non-digit characters and are
rejected. -/
theorem format_bytes_nondigit_witness :
    format_bytes "1.5" = "N/A" ∧ format_bytes "-5" = "N/A" := by
  constructor
  · exact format_bytes_nondigit "1.5" ⟨'.', by decide, by decide⟩
  · exact format_bytes_nondigit "-5" ⟨'-', by decide, by decide⟩

/-- Width allotted to the command column of a process row
(`display_processes`): in detailed mode `proc['comm'][:width-55]` when
`width > 55`, else `proc['comm'][:20]` (line 258); in basic mode
`proc['comm'][:width-30]` when `width > 30`, else `proc['comm'][:20]`
(line 270). -/
def comm_width (show_details : Bool) (width : ℤ) : ℤ :=
  if show_details then
    (if 55 < width then width - 55 else 20)
  else
    (if 30 < width then width - 30 else 20)

/-- C2 counterexample: in detailed mode at terminal width 56 the
command column is allotted width 1, below the 20-character floor the
claim asserts. -/
theorem comm_width_below_twenty :
    comm_width true 56 = 1 ∧ ¬ (20 ≤ comm_width true 56) := by
  constructor <;> decide

/-- C2 (amended): for every terminal width `w ≥ 1` and both modes the
command width is positive (never zero or negative); it equals `w - 55`
(detailed) or `w - 30` (basic) when the terminal is strictly wider than
the fixed columns, and the hard floor of 20 applies exactly when the
terminal is at most 55 (detailed) resp. 30 (basic) columns wide — so
widths strictly between the fixed-column width and fixed + 20 give a
command column narrower than 20. -/
theorem comm_width_amended (w : ℤ) (hw : 1 ≤ w) :
    (0 < comm_width true w ∧ 0 < comm_width false w) ∧
    (55 < w → comm_width true w = w - 55) ∧
    (30 < w → comm_width false w = w - 30) ∧
    (w ≤ 55 → comm_width true w = 20) ∧
    (w ≤ 30 → comm_width false w = 20) := by
  simp only [comm_width, if_true, Bool.false_eq_true, if_false]
  split_ifs <;> omega

/-- C2 witness: `comm_width_amended` applied at width 56. -/
theorem comm_width_amended_witness : 0 < comm_width true 56 :=
  (comm_width_amended 56 (by norm_num)).1.1

/-- The battery field of `get_system_info` (lines 77-79) as a function
of the two shell-command results: the `upower` output when it is not
the failure marker "N/A", otherwise the `/sys/.../capacity` output with
"%" appended — also when that output is itself "N/A". -/
def battery_field (upower_out cat_out : String) : String :=
  if upower_out = "N/A" then cat_out ++ "%" else upower_out

/-- The battery fragment of system-info line 3 in `display_header`
(lines 196-203): drawn (`some`) exactly when the battery string is not
the literal "N/A", omitted (`none`) otherwise. -/
def battery_info (battery : String) : Option String :=
  if battery ≠ "N/A" then some ("Battery: " ++ battery) else none

/-- C3: when the battery is unavailable — both the `upower` command and
the `/sys` capacity read fail, each returning "N/A" — the fallback
produces "N/A%", which is not the sentinel "N/A", so `display_header`
draws the placeholder "Battery: N/A%" instead of omitting the field. -/
theorem battery_placeholder_drawn :
    battery_field "N/A" "N/A" = "N/A%" ∧
    battery_info (battery_field "N/A" "N/A") = some "Battery: N/A%" := by
  constructor <;> decide

/-- The refresh interval of `run`: `update_interval = 2` seconds
(line 296). -/
def update_interval : ℚ := 2

/-- The refresh decision of `run` (line 307): refresh iff
`current_time - last_update >= update_interval`. -/
def shouldRefresh (now last_update : ℚ) : Bool :=
  decide (update_interval ≤ now - last_update)

/-- Number of refreshes fired by a sequence of loop iterations checked
at the given times, starting from the given `last_update` (which `run`
initialises to 0 at line 295); a firing check records its own time as
the new `last_update` (line 326). -/
def refreshChecks : ℚ → List ℚ → ℕ
  | _, [] => 0
  | last_update, t :: ts =>
    if shouldRefresh t last_update then 1 + refreshChecks t ts
    else refreshChecks last_update ts

/-- C6: a refresh fires iff at least `update_interval` (2 s) has
elapsed since the last refresh; with the initial `last_update = 0` any
first check at wall-clock time ≥ 2 (every real epoch time) refreshes;
and after a refresh at `t0`, a check 1.9 s later fires nothing while a
further check at 2.1 s cumulative fires exactly one refresh. -/
theorem refresh_schedule :
    (∀ now last_update : ℚ,
      shouldRefresh now last_update = true ↔ update_interval ≤ now - last_update) ∧
    (∀ now : ℚ, update_interval ≤ now → shouldRefresh now 0 = true) ∧
    (∀ t0 : ℚ, refreshChecks t0 [t0 + 19/10] = 0 ∧
      refreshChecks t0 [t0 + 19/10, t0 + 21/10] = 1) := by
  refine ⟨?_, ?_, ?_⟩
  · intro now last_update
    simp [shouldRefresh]
  · intro now h
    simp only [shouldRefresh, decide_eq_true_eq]
    linarith
  · intro t0
    have h1 : shouldRefresh (t0 + 19/10) t0 = false := by
      simp only [shouldRefresh, update_interval, decide_eq_false_iff_not]
      intro h
      linarith
    have h2 : shouldRefresh (t0 + 21/10) t0 = true := by
      simp only [shouldRefresh, update_interval, decide_eq_true_eq]
      linarith
    constructor <;> simp [refreshChecks, h1, h2]

/-- C6 witness: `refresh_schedule` applied at the first check of a run
(initial `last_update = 0`) at wall-clock time 100. -/
theorem refresh_schedule_witness : shouldRefresh 100 0 = true :=
  refresh_schedule.2.1 100 (by norm_num [update_interval])

/-- The view options `run` mutates: the fixed sort key (`process_sort`,
line 15) and the detailed-view flag (`show_details`, line 16). -/
structure ViewOptions where
  process_sort : String
  show_details : Bool
deriving DecidableEq, Repr

/-- The `d`/`D` handling of `run` (lines 303-304) on the view options:
key codes `ord('d') = 100` and `ord('D') = 68` flip `show_details`; any
other key leaves the options unchanged. -/
def apply_key_view (key : ℤ) (v : ViewOptions) : ViewOptions :=
  if key = 100 ∨ key = 68 then { v with show_details := !v.show_details } else v

/-- C8: toggling detailed mode twice — with either case of the key, in
any combination — returns the view options to exactly their original
state, and the lower-case and upper-case keys perform the same
action on every state. -/
theorem toggle_involution (v : ViewOptions) :
    apply_key_view 100 (apply_key_view 100 v) = v ∧
    apply_key_view 68 (apply_key_view 68 v) = v ∧
    apply_key_view 68 (apply_key_view 100 v) = v ∧
    apply_key_view 100 (apply_key_view 68 v) = v ∧
    apply_key_view 100 v = apply_key_view 68 v := by
  cases v
  simp [apply_key_view]

/-- The mutable state threaded through the `while True` loop of `run`:
the view options and the last refresh time. -/
structure LoopState where
  view : ViewOptions
  last_update : ℚ
deriving DecidableEq, Repr

/-- The two externally visible effects of a refresh tick: fetching the
metrics (`get_system_info` / `get_processes`, lines 312-313) and
drawing the frame (lines 316-325). -/
inductive Action where
  | fetch : Action
  | draw : Action
deriving DecidableEq, Repr

/-- One iteration of the `while True` body of `run` (lines 298-329):
first the key is read — `ord('q') = 113` or `ord('Q') = 81` breaks out
of the loop at once (`none`), before any fetch or draw; `d`/`D` toggles
the view — then, iff the interval has elapsed, the iteration fetches
the metrics, draws a frame, and records the refresh time. -/
def loop_iter (key : ℤ) (now : ℚ) (s : LoopState) :
    Option LoopState × List Action :=
  if key = 113 ∨ key = 81 then (none, [])
  else
    let s1 : LoopState := { s with view := apply_key_view key s.view }
    if shouldRefresh now s1.last_update then
      (some { s1 with last_update := now }, [Action.fetch, Action.draw])
    else (some s1, [])

/-- The actions performed by running the loop body over a sequence of
(key, time) inputs, stopping as soon as an iteration breaks. -/
def loop_run (s : LoopState) : List (ℤ × ℚ) → List Action
  | [] => []
  | (k, t) :: rest =>
    match loop_iter k t s with
    | (none, acts) => acts
    | (some s1, acts) => acts ++ loop_run s1 rest

/-- C7: a quit key ('q' = 113 or 'Q' = 81) terminates the loop during
that very iteration with no metrics fetch and no draw, and however the
run would have continued, no further action of any kind is performed
after the quit key is received. -/
theorem quit_terminates_loop :
    (∀ (now : ℚ) (s : LoopState),
      loop_iter 113 now s = (none, []) ∧ loop_iter 81 now s = (none, [])) ∧
    (∀ (s : LoopState) (t : ℚ) (rest : List (ℤ × ℚ)),
      loop_run s ((113, t) :: rest) = [] ∧ loop_run s ((81, t) :: rest) = []) := by
  refine ⟨fun now s => ⟨rfl, rfl⟩, fun s t rest => ?_⟩
  constructor <;> simp [loop_run, loop_iter]

/-- Python list slicing `l[:n]` with a possibly negative bound: a
negative `n` counts from the end of the list (`len(l) + n`), clamping
at zero; the bound is also clamped to the list length. -/
def pySliceTo {α : Type} (l : List α) (n : ℤ) : List α :=
  if 0 ≤ n then l.take n.toNat else l.take ((l.length : ℤ) + n).toNat

/-- The row-drawing loop of `display_processes` (lines 224-227) over
`n` remaining sliced entries starting at index `i`: the row for index
`i` is `start_row + 2 + i`, and when it reaches `height - 2` the loop
breaks before drawing; otherwise one row is drawn.  Returns the number
of rows drawn. -/
def draw_loop (height start_row : ℤ) : ℕ → ℕ → ℕ
  | _, 0 => 0
  | i, n + 1 =>
    if height - 2 ≤ start_row + 2 + (i : ℤ) then 0
    else 1 + draw_loop height start_row (i + 1) n

/-- Number of process rows `display_processes` draws: the loop runs
over `processes[:max_processes]` with
`max_processes = height - start_row - 4` (line 223). -/
def drawn_rows {α : Type} (height start_row : ℤ) (processes : List α) : ℕ :=
  draw_loop height start_row 0
    (pySliceTo processes (height - start_row - 4)).length

lemma draw_loop_eq (h r : ℤ) :
    ∀ (n i : ℕ), draw_loop h r i n = min n (h - r - 4 - (i : ℤ)).toNat := by
  intro n
  induction n with
  | zero => intro i; simp [draw_loop]
  | succ n ih =>
      intro i
      unfold draw_loop
      split_ifs with hc
      · omega
      · rw [ih (i + 1)]
        push_cast
        omega

/-- C9: with `availableRows = height - start_row - 4`, the number of
process rows drawn is exactly `min availableRows processCount` whenever
`availableRows ≥ 0`, and exactly zero when `availableRows ≤ 0` — the
negative Python slice bound together with the break at `height - 2`
never draws a row on a too-small terminal. -/
theorem visible_row_count {α : Type} (height start_row : ℤ) (processes : List α) :
    (0 ≤ height - start_row - 4 →
      drawn_rows height start_row processes =
        min processes.length (height - start_row - 4).toNat) ∧
    (height - start_row - 4 ≤ 0 → drawn_rows height start_row processes = 0) := by
  constructor
  · intro h
    unfold drawn_rows pySliceTo
    rw [if_pos h, draw_loop_eq, List.length_take]
    push_cast
    omega
  · intro h
    unfold drawn_rows
    rw [draw_loop_eq]
    omega

/-- C9 witness: 45 processes on a terminal of height 31 with the table
starting at row 7 (availableRows = 20) draw exactly 20 rows. -/
theorem visible_row_count_witness :
    drawn_rows 31 7 (List.replicate 45 ()) = 20 :=
  ((visible_row_count 31 7 (List.replicate 45 ())).1 (by norm_num)).trans (by decide)

end Htop
